import Mathlib

/-!
Verification of the zlock server (`src/__main__.py` of zprocess).

The server keeps a dictionary `self.held_locks` mapping a lock key
(`filepath`) to a lock record, a dict with fields `uuid` (the owner),
`timeout` (remaining lease in seconds) and `depth` (re-entrancy count).
We embed the dictionary as a function `String → Option LockRecord`
(dict membership is `t k = some r`, assignment and deletion are pointwise
updates), Python ints as `Int`, and the per-request handling of
`ZMQLockServer.run` as a pure function on message frames that records
the frames sent on the REP socket, the log calls that completed, and
whether an exception escaped the per-request `try/except`.
-/

/-- A lock record: the dict `{'uuid': ..., 'timeout': ..., 'depth': ...}`
created by `ZMQLockServer.acquire`. -/
structure LockRecord where
  uuid : String
  timeout : Int
  depth : Int
deriving DecidableEq, Repr

/-- The `self.held_locks` dictionary, as a map from key to record. -/
abbrev LockTable := String → Option LockRecord

/-- `self.held_locks = {}`: the initial empty table. -/
def emptyTable : LockTable := fun _ => none

/-- Dict assignment `self.held_locks[filepath] = lock` (also the in-place
mutation of an existing record, which rebinds the key to the new record). -/
def dictSet (t : LockTable) (key : String) (lock : LockRecord) : LockTable :=
  fun s => if s = key then some lock else t s

/-- Dict deletion `del self.held_locks[filepath]`. -/
def dictDel (t : LockTable) (key : String) : LockTable :=
  fun s => if s = key then none else t s

/-- The second component of `acquire`'s return value: the resulting
re-entry depth on a grant (`return True, lock['depth']`), or the holder's
uuid on a denial (`return False, lock['uuid']`). -/
inductive AcqInfo where
  | depth (d : Int)
  | holder (u : String)
deriving DecidableEq, Repr

/-- `ZMQLockServer.acquire(self, filepath, uuid, timeout)` (lines 51-65),
after the `timeout = int(timeout)` conversion (the argument here is already
an `Int`; the conversion from the wire string is modelled in `requestBody`).
Returns the `(success, data)` pair together with the table after the call. -/
def ZMQLockServer.acquire (t : LockTable) (filepath uuid : String) (timeout : Int) :
    (Bool × AcqInfo) × LockTable :=
  match t filepath with
  | some lock =>
      if lock.uuid = uuid then
        -- lock['depth'] += 1; lock['timeout'] = max(lock['timeout'], timeout)
        let lock' : LockRecord :=
          { lock with depth := lock.depth + 1, timeout := max lock.timeout timeout }
        ((true, AcqInfo.depth lock'.depth), dictSet t filepath lock')
      else
        ((false, AcqInfo.holder lock.uuid), t)
  | none =>
      -- lock = {'uuid': uuid, 'timeout': timeout, 'depth': 1}
      let lock : LockRecord := { uuid := uuid, timeout := timeout, depth := 1 }
      ((true, AcqInfo.depth lock.depth), dictSet t filepath lock)

/-- `ZMQLockServer.release(self, filepath, uuid)` (lines 67-80).
Returns the `(success, data)` pair (`data` is the new depth on success and
`None` on failure) together with the table after the call. -/
def ZMQLockServer.release (t : LockTable) (filepath uuid : String) :
    (Bool × Option Int) × LockTable :=
  match t filepath with
  | some lock =>
      if lock.uuid = uuid then
        -- lock['depth'] -= 1
        let lock' : LockRecord := { lock with depth := lock.depth - 1 }
        if lock'.depth = 0 then
          ((true, some lock'.depth), dictDel t filepath)
        else
          ((true, some lock'.depth), dictSet t filepath lock')
      else
        ((false, none), t)
  | none => ((false, none), t)

/-- One iteration of the loop body of `ZMQLockServer.monitor_timeouts`
(lines 157-168): every held lock's `timeout` is decremented by 1 and the
record is deleted when the decremented value is `<= 0`.  The Python loop
iterates over a snapshot `self.held_locks.copy().items()` and mutates or
deletes entries of the live dict; since each key is visited exactly once
and entries are independent, the net effect on the dict is this pointwise
map. -/
def ZMQLockServer.monitor_timeouts_tick (t : LockTable) : LockTable :=
  fun key =>
    match t key with
    | some lock =>
        let lock' : LockRecord := { lock with timeout := lock.timeout - 1 }
        if lock'.timeout ≤ 0 then none else some lock'
    | none => none

/-- An operation on the lock table: a client `acquire` or `release` handled
by the request loop, or one tick of the timeout monitor. -/
inductive Op where
  | acq (key uuid : String) (timeout : Int)
  | rel (key uuid : String)
  | tick
deriving Repr

/-- The effect of one operation on the lock table. -/
def applyOp (t : LockTable) : Op → LockTable
  | Op.acq k u tm => (ZMQLockServer.acquire t k u tm).2
  | Op.rel k u => (ZMQLockServer.release t k u).2
  | Op.tick => ZMQLockServer.monitor_timeouts_tick t

/-- The lock table after a sequence of operations, starting from the empty
table the server is constructed with. -/
def runOps (ops : List Op) : LockTable := ops.foldl applyOp emptyTable

/-- Exceptions that the request-handling code of `ZMQLockServer.run` can
raise: `IndexError` from out-of-range list indexing, `TypeError` from
calling `acquire`/`release` with the wrong number of arguments, and
`ValueError` from `int()` on a bad literal or from the explicit
`raise ValueError('invalid method: ...')`. -/
inductive PyExn where
  | indexError
  | typeError
  | valueError (msg : String)
deriving DecidableEq, Repr

/-- The text produced by `traceback.format_exception` for an exception.
Only the fact that it is a nonempty diagnostic string matters for the
claims; we model it by the exception's type name and message. -/
def tracebackText : PyExn → String
  | PyExn.indexError => "IndexError: list index out of range"
  | PyExn.typeError => "TypeError: wrong number of arguments"
  | PyExn.valueError m => "ValueError: " ++ m

/-- Logging levels used by the request loop. -/
inductive LogLevel where
  | info
  | warning
  | error
deriving DecidableEq, Repr

/-- The numeric value of one decimal digit character (code points 48-57),
if any. -/
def digit? (c : Char) : Option Nat :=
  let v := c.toNat
  if 48 ≤ v ∧ v ≤ 57 then some (v - 48) else none

/-- The value of a nonempty list of decimal digits, left to right. -/
def parseDigits (acc : Nat) : List Char → Option Nat
  | [] => some acc
  | c :: cs =>
      match digit? c with
      | some d => parseDigits (acc * 10 + d) cs
      | none => none

/-- Python `int(s)` on the timeout frame: `some` of the value of an
optionally `-`-signed base-10 numeral, `none` (a `ValueError`) on anything
else.  Whitespace tolerance and other bases of CPython's `int` are not
exercised by the protocol and are not modelled. -/
def pyInt? (s : String) : Option Int :=
  match s.toList with
  | [] => none
  | ['-'] => none
  | '-' :: ds => (parseDigits 0 ds).map (fun n => -(n : Int))
  | ds => (parseDigits 0 ds).map (fun n => (n : Int))

/-- The state accumulated by the `try:` block of one iteration of
`ZMQLockServer.run` (lines 111-146): the multipart messages sent on the
REP socket so far, the lock table, the log calls that completed, and the
exception raised, if any (effects that happened before the raise are
kept, exactly as in Python). -/
structure BodyResult where
  sent : List (List String)
  table : LockTable
  logged : List (LogLevel × String)
  exn : Option PyExn

/-- The outcome of one full iteration of the request loop, after the
`except Exception:` handler (lines 147-151) has run: `crashed` records
whether an exception escaped the per-request `try/except` (aborting
`run`). -/
structure Outcome where
  sent : List (List String)
  table : LockTable
  logged : List (LogLevel × String)
  crashed : Bool

/-- The `try:` block of one iteration of `ZMQLockServer.run`
(lines 111-146), as a function of the incoming request frames.
`pollOutcome` is the value of `poller.poll(self.retry_interval)` on the
denied-acquire path (whether another client message arrived during the
bounded wait); the source binds it to `events` and never reads it. -/
def requestBody (pollOutcome : Bool) (t : LockTable) (messages : List String) : BodyResult :=
  match messages with
  | [] =>
      -- request = messages[0] raises IndexError on an empty message
      { sent := [], table := t, logged := [], exn := some PyExn.indexError }
  | request :: args =>
      if request = "hello" then
        -- sock.send('hello')
        { sent := [["hello"]], table := t, logged := [], exn := none }
      else if request = "acquire" then
        match args with
        | [key, uuid, ts] =>
            match pyInt? ts with
            | none =>
                -- timeout = int(timeout) inside acquire raises ValueError
                -- before the table is touched
                { sent := [], table := t, logged := [],
                  exn := some (PyExn.valueError ("invalid literal for int(): " ++ ts)) }
            | some timeout =>
                match ZMQLockServer.acquire t key uuid timeout with
                | ((true, AcqInfo.depth d), t') =>
                    { sent := [["ok", "lock acquired, re-entry depth " ++ toString d]],
                      table := t',
                      logged := [(LogLevel.info,
                        uuid ++ " " ++ (if 1 < d then "re-entrantly " else "")
                          ++ "acquired " ++ key)],
                      exn := none }
                | ((true, AcqInfo.holder _), t') =>
                    -- unreachable: a grant always carries a depth; formatting a
                    -- string with %d would raise TypeError
                    { sent := [], table := t', logged := [], exn := some PyExn.typeError }
                | ((false, data), t') =>
                    -- events = poller.poll(self.retry_interval): the wait's
                    -- outcome is bound but never read
                    let _events := pollOutcome
                    let holderText :=
                      match data with
                      | AcqInfo.holder h => h
                      | AcqInfo.depth d => toString d
                    { sent := [["retry", "lock held by uuid " ++ holderText]],
                      table := t',
                      logged := [(LogLevel.info,
                        uuid ++ " failed to acquire " ++ key ++ ", because "
                          ++ holderText ++ " is holding it")],
                      exn := none }
        | _ =>
            -- self.acquire(*args) with the wrong arity raises TypeError
            { sent := [], table := t, logged := [], exn := some PyExn.typeError }
      else if request = "release" then
        match args with
        | [key, uuid] =>
            match ZMQLockServer.release t key uuid with
            | ((true, some d), t') =>
                { sent := [["ok", "lock released, re-entry depth " ++ toString d]],
                  table := t',
                  logged := [(LogLevel.info,
                    if d ≠ 0 then uuid ++ " lowered its re-entrance level on " ++ key
                    else uuid ++ " released " ++ key)],
                  exn := none }
            | ((true, none), t') =>
                -- unreachable: a successful release always carries a depth
                { sent := [], table := t', logged := [], exn := some PyExn.typeError }
            | ((false, _), t') =>
                -- sock.send_multipart(['error', 'lock holding timed out or was
                -- never acquired']), then logger.warning formats
                -- (args[2], args[1]); args = [key, uuid] so evaluating args[2]
                -- raises IndexError after the error frames were already sent
                match [key, uuid].get? 2 with
                | some w =>
                    { sent := [["error", "lock holding timed out or was never acquired"]],
                      table := t',
                      logged := [(LogLevel.warning,
                        w ++ " tried to released " ++ uuid
                          ++ ", but it wasn't holding it at the time")],
                      exn := none }
                | none =>
                    { sent := [["error", "lock holding timed out or was never acquired"]],
                      table := t', logged := [], exn := some PyExn.indexError }
        | _ =>
            -- self.release(*args) with the wrong arity raises TypeError
            { sent := [], table := t, logged := [], exn := some PyExn.typeError }
      else
        -- raise ValueError('invalid method: %s' % request)
        { sent := [], table := t, logged := [],
          exn := some (PyExn.valueError ("invalid method: " ++ request)) }

/-- One full iteration of the request loop of `ZMQLockServer.run`: the
`try:` body followed by the `except Exception:` handler (lines 147-151).
The handler sends `['error', traceback]` and logs; but the REP socket can
only send once per received request, so when the body already sent a reply
the handler's `sock.send_multipart` raises `zmq.ZMQError` (strict
alternation), which escapes the `try/except` and aborts `run` — recorded
as `crashed := true`. -/
def processRequest (pollOutcome : Bool) (t : LockTable) (messages : List String) : Outcome :=
  let b := requestBody pollOutcome t messages
  match b.exn with
  | none => { sent := b.sent, table := b.table, logged := b.logged, crashed := false }
  | some e =>
      if b.sent = [] then
        { sent := [["error", tracebackText e]],
          table := b.table,
          logged := b.logged ++ [(LogLevel.error,
            "Exception whilst processing request " ++ toString messages
              ++ ":\n" ++ tracebackText e)],
          crashed := false }
      else
        { sent := b.sent, table := b.table, logged := b.logged, crashed := true }

/-- A table holding a single lock record, used as a concrete test fixture. -/
def singleTable (key : String) (lock : LockRecord) : LockTable :=
  fun s => if s = key then some lock else none

/-- Evaluating `dictSet` at the assigned key. -/
theorem dictSet_self (t : LockTable) (k : String) (v : LockRecord) :
    dictSet t k v k = some v := by
  simp [dictSet]

/-- Evaluating `dictSet` away from the assigned key. -/
theorem dictSet_other (t : LockTable) (k s : String) (v : LockRecord) (h : s ≠ k) :
    dictSet t k v s = t s := by
  simp [dictSet, h]

/-- C1: if `o1` holds `k`, then `acquire(k, o2, t)` for any `o2 ≠ o1` and any
timeout returns the denial `(False, o1)` and leaves the lock table unchanged,
and an immediately repeated such call (with any timeout) returns the same
denial. -/
theorem acquire_foreign_holder_denies (t : LockTable) (k o1 o2 : String) (tm tm2 : Int)
    (r : LockRecord) (hl : t k = some r) (ho : r.uuid = o1) (hne : o1 ≠ o2) :
    ZMQLockServer.acquire t k o2 tm = ((false, AcqInfo.holder o1), t)
    ∧ ZMQLockServer.acquire (ZMQLockServer.acquire t k o2 tm).2 k o2 tm2
        = ((false, AcqInfo.holder o1), t) := by
  have hne2 : ¬ r.uuid = o2 := by rw [ho]; exact hne
  have h1 : ∀ tmx : Int, ZMQLockServer.acquire t k o2 tmx = ((false, AcqInfo.holder o1), t) := by
    intro tmx
    unfold ZMQLockServer.acquire
    rw [hl]
    simp [hne2, ho, hne]
  refine ⟨h1 tm, ?_⟩
  rw [h1 tm]
  exact h1 tm2

theorem acquire_foreign_holder_denies_witness :
    singleTable "fileX" ⟨"o1", 10, 1⟩ "fileX" = some ⟨"o1", 10, 1⟩
    ∧ ("o1" : String) ≠ "o2"
    ∧ (ZMQLockServer.acquire (singleTable "fileX" ⟨"o1", 10, 1⟩) "fileX" "o2" 5
        = ((false, AcqInfo.holder "o1"), singleTable "fileX" ⟨"o1", 10, 1⟩)
      ∧ ZMQLockServer.acquire
          (ZMQLockServer.acquire (singleTable "fileX" ⟨"o1", 10, 1⟩) "fileX" "o2" 5).2
          "fileX" "o2" 7
        = ((false, AcqInfo.holder "o1"), singleTable "fileX" ⟨"o1", 10, 1⟩)) :=
  ⟨by decide, by decide,
    acquire_foreign_holder_denies (singleTable "fileX" ⟨"o1", 10, 1⟩) "fileX" "o1" "o2" 5 7
      ⟨"o1", 10, 1⟩ (by decide) rfl (by decide)⟩

/-- C2: a re-acquisition by the current owner returns `(True, depth + 1)`,
stores a record whose depth is incremented and whose lease is
`max(lease, timeout)`, and in particular never shortens the lease. -/
theorem acquire_reentrant_grants (t : LockTable) (k o : String) (tm : Int) (r : LockRecord)
    (hl : t k = some r) (ho : r.uuid = o) :
    ZMQLockServer.acquire t k o tm
        = ((true, AcqInfo.depth (r.depth + 1)),
            dictSet t k { uuid := r.uuid, timeout := max r.timeout tm, depth := r.depth + 1 })
    ∧ (ZMQLockServer.acquire t k o tm).2 k
        = some { uuid := r.uuid, timeout := max r.timeout tm, depth := r.depth + 1 }
    ∧ r.timeout ≤ max r.timeout tm := by
  have h1 : ZMQLockServer.acquire t k o tm
      = ((true, AcqInfo.depth (r.depth + 1)),
          dictSet t k { uuid := r.uuid, timeout := max r.timeout tm, depth := r.depth + 1 }) := by
    unfold ZMQLockServer.acquire
    rw [hl]
    simp [ho]
  refine ⟨h1, ?_, le_max_left _ _⟩
  rw [h1]
  exact dictSet_self _ _ _

theorem acquire_reentrant_grants_witness :
    singleTable "fileY" ⟨"oA", 10, 1⟩ "fileY" = some ⟨"oA", 10, 1⟩
    ∧ (ZMQLockServer.acquire (singleTable "fileY" ⟨"oA", 10, 1⟩) "fileY" "oA" 3
        = ((true, AcqInfo.depth 2),
            dictSet (singleTable "fileY" ⟨"oA", 10, 1⟩) "fileY" ⟨"oA", 10, 2⟩)
      ∧ (ZMQLockServer.acquire (singleTable "fileY" ⟨"oA", 10, 1⟩) "fileY" "oA" 3).2 "fileY"
        = some ⟨"oA", 10, 2⟩
      ∧ (10 : Int) ≤ max 10 3) :=
  ⟨by decide,
    acquire_reentrant_grants (singleTable "fileY" ⟨"oA", 10, 1⟩) "fileY" "oA" 3
      ⟨"oA", 10, 1⟩ (by decide) rfl⟩

/-- C3: releasing an absent key or a key held by another owner returns
`(False, None)` and leaves the table unchanged; releasing a held key by its
owner decrements the depth, deletes the record exactly when the new depth is
0, and returns `(True, new depth)`. -/
theorem release_semantics (t : LockTable) (k o : String) :
    (t k = none → ZMQLockServer.release t k o = ((false, none), t))
    ∧ (∀ r : LockRecord, t k = some r → r.uuid ≠ o →
        ZMQLockServer.release t k o = ((false, none), t))
    ∧ (∀ r : LockRecord, t k = some r → r.uuid = o → r.depth - 1 = 0 →
        ZMQLockServer.release t k o = ((true, some (r.depth - 1)), dictDel t k))
    ∧ (∀ r : LockRecord, t k = some r → r.uuid = o → r.depth - 1 ≠ 0 →
        ZMQLockServer.release t k o
          = ((true, some (r.depth - 1)),
              dictSet t k { uuid := r.uuid, timeout := r.timeout, depth := r.depth - 1 })) := by
  refine ⟨?_, ?_, ?_, ?_⟩
  · intro h
    unfold ZMQLockServer.release
    rw [h]
  · intro r hl hne
    unfold ZMQLockServer.release
    rw [hl]
    simp [hne]
  · intro r hl ho hz
    unfold ZMQLockServer.release
    rw [hl]
    simp [ho, hz]
  · intro r hl ho hnz
    unfold ZMQLockServer.release
    rw [hl]
    simp [ho, hnz]

theorem release_semantics_witness :
    ZMQLockServer.release emptyTable "fileZ" "oC" = ((false, none), emptyTable)
    ∧ ZMQLockServer.release (singleTable "fileZ" ⟨"oB", 5, 1⟩) "fileZ" "oC"
        = ((false, none), singleTable "fileZ" ⟨"oB", 5, 1⟩)
    ∧ ZMQLockServer.release (singleTable "fileZ" ⟨"oB", 5, 1⟩) "fileZ" "oB"
        = ((true, some 0), dictDel (singleTable "fileZ" ⟨"oB", 5, 1⟩) "fileZ")
    ∧ ZMQLockServer.release (singleTable "fileZ" ⟨"oB", 5, 2⟩) "fileZ" "oB"
        = ((true, some 1),
            dictSet (singleTable "fileZ" ⟨"oB", 5, 2⟩) "fileZ" ⟨"oB", 5, 1⟩) :=
  ⟨(release_semantics emptyTable "fileZ" "oC").1 rfl,
   (release_semantics (singleTable "fileZ" ⟨"oB", 5, 1⟩) "fileZ" "oC").2.1
     ⟨"oB", 5, 1⟩ (by decide) (by decide),
   (release_semantics (singleTable "fileZ" ⟨"oB", 5, 1⟩) "fileZ" "oB").2.2.1
     ⟨"oB", 5, 1⟩ (by decide) rfl (by decide),
   (release_semantics (singleTable "fileZ" ⟨"oB", 5, 2⟩) "fileZ" "oB").2.2.2
     ⟨"oB", 5, 2⟩ (by decide) rfl (by decide)⟩

/-- C9: a successful release at depth ≥ 2 changes only the record's depth
(to depth − 1): the stored record keeps its owner and lease, and every other
key's entry in the lock table is untouched. -/
theorem release_frame_property (t : LockTable) (k o : String) (r : LockRecord)
    (hl : t k = some r) (ho : r.uuid = o) (hd : 2 ≤ r.depth) :
    ZMQLockServer.release t k o
        = ((true, some (r.depth - 1)),
            dictSet t k { uuid := r.uuid, timeout := r.timeout, depth := r.depth - 1 })
    ∧ (ZMQLockServer.release t k o).2 k
        = some { uuid := r.uuid, timeout := r.timeout, depth := r.depth - 1 }
    ∧ ∀ k2 : String, k2 ≠ k → (ZMQLockServer.release t k o).2 k2 = t k2 := by
  have hnz : r.depth - 1 ≠ 0 := by omega
  have h1 : ZMQLockServer.release t k o
      = ((true, some (r.depth - 1)),
          dictSet t k { uuid := r.uuid, timeout := r.timeout, depth := r.depth - 1 }) := by
    unfold ZMQLockServer.release
    rw [hl]
    simp [ho, hnz]
  refine ⟨h1, ?_, ?_⟩
  · rw [h1]
    exact dictSet_self _ _ _
  · intro k2 hk2
    rw [h1]
    exact dictSet_other _ _ _ _ hk2

theorem release_frame_property_witness :
    singleTable "fileW" ⟨"oD", 7, 3⟩ "fileW" = some ⟨"oD", 7, 3⟩
    ∧ (ZMQLockServer.release (singleTable "fileW" ⟨"oD", 7, 3⟩) "fileW" "oD"
        = ((true, some 2),
            dictSet (singleTable "fileW" ⟨"oD", 7, 3⟩) "fileW" ⟨"oD", 7, 2⟩)
      ∧ (ZMQLockServer.release (singleTable "fileW" ⟨"oD", 7, 3⟩) "fileW" "oD").2 "fileW"
        = some ⟨"oD", 7, 2⟩)
    ∧ (ZMQLockServer.release (singleTable "fileW" ⟨"oD", 7, 3⟩) "fileW" "oD").2 "other"
        = singleTable "fileW" ⟨"oD", 7, 3⟩ "other" :=
  have h := release_frame_property (singleTable "fileW" ⟨"oD", 7, 3⟩) "fileW" "oD"
    ⟨"oD", 7, 3⟩ (by decide) rfl (by decide)
  ⟨by decide, ⟨h.1, h.2.1⟩, h.2.2 "other" (by decide)⟩

/-- C10: an `acquire` on an absent key with a non-positive timeout still
grants, returning `(True, 1)` and storing `{owner, lease := timeout,
depth := 1}`; the record is present after the call, and the next monitor
tick decrements the non-positive lease and evicts the record. -/
theorem acquire_nonpositive_timeout (t : LockTable) (k o : String) (tm : Int)
    (hl : t k = none) (htm : tm ≤ 0) :
    ZMQLockServer.acquire t k o tm = ((true, AcqInfo.depth 1), dictSet t k ⟨o, tm, 1⟩)
    ∧ (ZMQLockServer.acquire t k o tm).2 k = some ⟨o, tm, 1⟩
    ∧ ZMQLockServer.monitor_timeouts_tick (ZMQLockServer.acquire t k o tm).2 k = none := by
  have h1 : ZMQLockServer.acquire t k o tm
      = ((true, AcqInfo.depth 1), dictSet t k ⟨o, tm, 1⟩) := by
    unfold ZMQLockServer.acquire
    rw [hl]
  refine ⟨h1, ?_, ?_⟩
  · rw [h1]
    exact dictSet_self _ _ _
  · rw [h1]
    have h2 : dictSet t k ⟨o, tm, 1⟩ k = some ⟨o, tm, 1⟩ := dictSet_self _ _ _
    simp only [ZMQLockServer.monitor_timeouts_tick, h2]
    have h3 : tm - 1 ≤ 0 := by omega
    simp [h3]

theorem acquire_nonpositive_timeout_witness :
    emptyTable "fileU" = none
    ∧ (0 : Int) ≤ 0
    ∧ (ZMQLockServer.acquire emptyTable "fileU" "oF" 0
        = ((true, AcqInfo.depth 1), dictSet emptyTable "fileU" ⟨"oF", 0, 1⟩)
      ∧ (ZMQLockServer.acquire emptyTable "fileU" "oF" 0).2 "fileU" = some ⟨"oF", 0, 1⟩
      ∧ ZMQLockServer.monitor_timeouts_tick
          (ZMQLockServer.acquire emptyTable "fileU" "oF" 0).2 "fileU" = none) :=
  ⟨rfl, by decide,
    acquire_nonpositive_timeout emptyTable "fileU" "oF" 0 rfl (by decide)⟩

/-- The lock table after an `acquire` on an absent key. -/
theorem acquire_table_none {t : LockTable} {key : String} (u : String) (tm : Int)
    (h : t key = none) :
    (ZMQLockServer.acquire t key u tm).2 = dictSet t key ⟨u, tm, 1⟩ := by
  unfold ZMQLockServer.acquire
  rw [h]

/-- The lock table after a re-acquisition by the current owner. -/
theorem acquire_table_same {t : LockTable} {key u : String} {lock : LockRecord} (tm : Int)
    (h : t key = some lock) (hu : lock.uuid = u) :
    (ZMQLockServer.acquire t key u tm).2
      = dictSet t key ⟨lock.uuid, max lock.timeout tm, lock.depth + 1⟩ := by
  unfold ZMQLockServer.acquire
  rw [h]
  simp [hu]

/-- A denied `acquire` leaves the lock table unchanged. -/
theorem acquire_table_other {t : LockTable} {key u : String} {lock : LockRecord} (tm : Int)
    (h : t key = some lock) (hu : lock.uuid ≠ u) :
    (ZMQLockServer.acquire t key u tm).2 = t := by
  unfold ZMQLockServer.acquire
  rw [h]
  simp [hu]

/-- Releasing an absent key leaves the lock table unchanged. -/
theorem release_table_none {t : LockTable} {key : String} (u : String)
    (h : t key = none) :
    (ZMQLockServer.release t key u).2 = t := by
  unfold ZMQLockServer.release
  rw [h]

/-- Releasing a foreign-owned key leaves the lock table unchanged. -/
theorem release_table_other {t : LockTable} {key u : String} {lock : LockRecord}
    (h : t key = some lock) (hu : lock.uuid ≠ u) :
    (ZMQLockServer.release t key u).2 = t := by
  unfold ZMQLockServer.release
  rw [h]
  simp [hu]

/-- A release that brings the depth to 0 deletes the record. -/
theorem release_table_del {t : LockTable} {key u : String} {lock : LockRecord}
    (h : t key = some lock) (hu : lock.uuid = u) (hz : lock.depth - 1 = 0) :
    (ZMQLockServer.release t key u).2 = dictDel t key := by
  unfold ZMQLockServer.release
  rw [h]
  simp [hu, hz]

/-- A release that leaves a positive depth stores the decremented record. -/
theorem release_table_dec {t : LockTable} {key u : String} {lock : LockRecord}
    (h : t key = some lock) (hu : lock.uuid = u) (hnz : lock.depth - 1 ≠ 0) :
    (ZMQLockServer.release t key u).2
      = dictSet t key ⟨lock.uuid, lock.timeout, lock.depth - 1⟩ := by
  unfold ZMQLockServer.release
  rw [h]
  simp [hu, hnz]

/-- A monitor tick at a key absent from the table. -/
theorem tick_apply_none {t : LockTable} {key : String} (h : t key = none) :
    ZMQLockServer.monitor_timeouts_tick t key = none := by
  simp only [ZMQLockServer.monitor_timeouts_tick]
  rw [h]

/-- A monitor tick at a held key: the lease is decremented and the record
evicted exactly when the decremented lease is ≤ 0. -/
theorem tick_apply_some {t : LockTable} {key : String} {lock : LockRecord}
    (h : t key = some lock) :
    ZMQLockServer.monitor_timeouts_tick t key
      = if lock.timeout - 1 ≤ 0 then none
        else some ⟨lock.uuid, lock.timeout - 1, lock.depth⟩ := by
  simp only [ZMQLockServer.monitor_timeouts_tick]
  rw [h]

/-- Every single operation (an `acquire`, a `release`, or one monitor tick)
preserves the invariant that every record in the table has depth ≥ 1. -/
theorem depthInv_applyOp {t : LockTable}
    (h : ∀ k r, t k = some r → 1 ≤ r.depth) (op : Op) :
    ∀ k r, applyOp t op k = some r → 1 ≤ r.depth := by
  intro k r hk
  cases op with
  | acq key u tm =>
      simp only [applyOp] at hk
      cases ht : t key with
      | none =>
          rw [acquire_table_none u tm ht] at hk
          simp only [dictSet] at hk
          by_cases hkk : k = key
          · rw [if_pos hkk] at hk
            injection hk with h2
            subst h2
            exact le_refl 1
          · rw [if_neg hkk] at hk
            exact h k r hk
      | some lock =>
          have hl1 : 1 ≤ lock.depth := h key lock ht
          by_cases hu : lock.uuid = u
          · rw [acquire_table_same tm ht hu] at hk
            simp only [dictSet] at hk
            by_cases hkk : k = key
            · rw [if_pos hkk] at hk
              injection hk with h2
              subst h2
              show 1 ≤ lock.depth + 1
              omega
            · rw [if_neg hkk] at hk
              exact h k r hk
          · rw [acquire_table_other tm ht hu] at hk
            exact h k r hk
  | rel key u =>
      simp only [applyOp] at hk
      cases ht : t key with
      | none =>
          rw [release_table_none u ht] at hk
          exact h k r hk
      | some lock =>
          have hl1 : 1 ≤ lock.depth := h key lock ht
          by_cases hu : lock.uuid = u
          · by_cases hz : lock.depth - 1 = 0
            · rw [release_table_del ht hu hz] at hk
              simp only [dictDel] at hk
              by_cases hkk : k = key
              · rw [if_pos hkk] at hk
                exact absurd hk (by simp)
              · rw [if_neg hkk] at hk
                exact h k r hk
            · rw [release_table_dec ht hu hz] at hk
              simp only [dictSet] at hk
              by_cases hkk : k = key
              · rw [if_pos hkk] at hk
                injection hk with h2
                subst h2
                show 1 ≤ lock.depth - 1
                omega
              · rw [if_neg hkk] at hk
                exact h k r hk
          · rw [release_table_other ht hu] at hk
            exact h k r hk
  | tick =>
      simp only [applyOp] at hk
      cases ht : t k with
      | none =>
          rw [tick_apply_none ht] at hk
          exact absurd hk (by simp)
      | some lock =>
          rw [tick_apply_some ht] at hk
          by_cases hto : lock.timeout - 1 ≤ 0
          · rw [if_pos hto] at hk
            exact absurd hk (by simp)
          · rw [if_neg hto] at hk
            injection hk with h2
            subst h2
            show 1 ≤ lock.depth
            exact h k lock ht

/-- C4: starting from the empty table, after any sequence of `acquire`
calls, `release` calls and monitor ticks, every record present in the lock
table has depth ≥ 1 — a key is present only while some owner holds it with
at least one outstanding acquisition. -/
theorem lock_table_depth_invariant (ops : List Op) (k : String) (r : LockRecord)
    (h : runOps ops k = some r) : 1 ≤ r.depth := by
  have main : ∀ (l : List Op) (t : LockTable),
      (∀ k2 r2, t k2 = some r2 → 1 ≤ r2.depth) →
      ∀ k2 r2, l.foldl applyOp t k2 = some r2 → 1 ≤ r2.depth := by
    intro l
    induction l with
    | nil => intro t ht k2 r2 hk2; exact ht k2 r2 hk2
    | cons op l2 ih =>
        intro t ht k2 r2 hk2
        exact ih (applyOp t op) (depthInv_applyOp ht op) k2 r2 hk2
  have hempty : ∀ k2 r2, emptyTable k2 = some r2 → 1 ≤ r2.depth := by
    intro k2 r2 hk2
    simp [emptyTable] at hk2
  exact main ops emptyTable hempty k r h

theorem lock_table_depth_invariant_witness :
    runOps [Op.acq "k" "o" 5, Op.acq "k" "o" 2, Op.rel "k" "o", Op.tick] "k"
        = some ⟨"o", 4, 1⟩
    ∧ 1 ≤ (⟨"o", 4, 1⟩ : LockRecord).depth :=
  ⟨by decide,
    lock_table_depth_invariant [Op.acq "k" "o" 5, Op.acq "k" "o" 2, Op.rel "k" "o", Op.tick]
      "k" ⟨"o", 4, 1⟩ (by decide)⟩

/-- Iterating the monitor tick on a held key counts the lease down by one
per tick, and evicts the record at the tick on which the lease reaches 0. -/
theorem tick_iterate_timeout (t : LockTable) (k : String) (r : LockRecord) (n : Nat)
    (hl : t k = some r) (hn : r.timeout = (n : Int)) (hpos : 1 ≤ n) :
    ∀ i : Nat, (ZMQLockServer.monitor_timeouts_tick)^[i] t k
      = if i < n then some ⟨r.uuid, (n : Int) - (i : Int), r.depth⟩ else none := by
  intro i
  induction i with
  | zero =>
      rw [if_pos (by omega : 0 < n)]
      simp only [Function.iterate_zero, id_eq]
      rw [hl]
      have h0 : ((n : Int) - ((0 : Nat) : Int)) = r.timeout := by
        rw [hn]
        simp
      rw [h0]
  | succ i ih =>
      rw [Function.iterate_succ_apply']
      by_cases hi : i < n
      · have hsome : (ZMQLockServer.monitor_timeouts_tick)^[i] t k
            = some ⟨r.uuid, (n : Int) - (i : Int), r.depth⟩ := by
          rw [ih, if_pos hi]
        rw [tick_apply_some hsome]
        by_cases hi1 : i + 1 < n
        · rw [if_pos hi1]
          have h1 : ¬((n : Int) - (i : Int) - 1 ≤ 0) := by omega
          show (if (n : Int) - (i : Int) - 1 ≤ 0 then none
              else some (⟨r.uuid, (n : Int) - (i : Int) - 1, r.depth⟩ : LockRecord))
            = some ⟨r.uuid, (n : Int) - ((i + 1 : Nat) : Int), r.depth⟩
          rw [if_neg h1]
          have h2 : (n : Int) - (i : Int) - 1 = (n : Int) - ((i + 1 : Nat) : Int) := by
            push_cast
            ring
          rw [h2]
        · rw [if_neg hi1]
          have h1 : (n : Int) - (i : Int) - 1 ≤ 0 := by omega
          show (if (n : Int) - (i : Int) - 1 ≤ 0 then none
              else some (⟨r.uuid, (n : Int) - (i : Int) - 1, r.depth⟩ : LockRecord))
            = none
          rw [if_pos h1]
      · have hnone : (ZMQLockServer.monitor_timeouts_tick)^[i] t k = none := by
          rw [ih, if_neg hi]
        rw [tick_apply_none hnone, if_neg (by omega : ¬ i + 1 < n)]

/-- C5: a key held with lease `n ≥ 1` and never re-acquired is still present
after each of the first `n − 1` monitor ticks, with the lease decremented by
1 per tick, and is absent after the `n`-th tick and every tick thereafter. -/
theorem timeout_eviction_timing (t : LockTable) (k : String) (r : LockRecord) (n : Nat)
    (hl : t k = some r) (hn : r.timeout = (n : Int)) (hpos : 1 ≤ n) :
    (∀ i : Nat, i < n → (ZMQLockServer.monitor_timeouts_tick)^[i] t k
        = some ⟨r.uuid, (n : Int) - (i : Int), r.depth⟩)
    ∧ (∀ i : Nat, n ≤ i → (ZMQLockServer.monitor_timeouts_tick)^[i] t k = none) := by
  refine ⟨fun i hi => ?_, fun i hi => ?_⟩
  · rw [tick_iterate_timeout t k r n hl hn hpos i, if_pos hi]
  · rw [tick_iterate_timeout t k r n hl hn hpos i, if_neg (by omega)]

theorem timeout_eviction_timing_witness :
    singleTable "fileT" ⟨"oE", 3, 1⟩ "fileT" = some ⟨"oE", 3, 1⟩
    ∧ ((ZMQLockServer.monitor_timeouts_tick)^[2]
          (singleTable "fileT" ⟨"oE", 3, 1⟩) "fileT" = some ⟨"oE", 1, 1⟩
      ∧ (ZMQLockServer.monitor_timeouts_tick)^[3]
          (singleTable "fileT" ⟨"oE", 3, 1⟩) "fileT" = none) :=
  have h := timeout_eviction_timing (singleTable "fileT" ⟨"oE", 3, 1⟩) "fileT"
    ⟨"oE", 3, 1⟩ 3 (by decide) (by decide) (by decide)
  ⟨by decide, h.1 2 (by decide), h.2 3 (by decide)⟩

/-- C7: on a denied `acquire`, the handler's response is the `retry` frames
naming the current holder, the lock table is not modified, and the outcome
is the same function of the request whichever way the bounded contention
wait ends (`p = true`: another client message arrived during the wait;
`p = false`: the interval elapsed) — the poll result is never inspected and
the lock is not re-checked after the wait. -/
theorem retry_response_poll_independent (t : LockTable) (k o ts : String) (n : Int)
    (r : LockRecord) (hparse : pyInt? ts = some n) (hl : t k = some r) (hne : r.uuid ≠ o) :
    ∀ p : Bool, processRequest p t ["acquire", k, o, ts]
      = { sent := [["retry", "lock held by uuid " ++ r.uuid]],
          table := t,
          logged := [(LogLevel.info,
            o ++ " failed to acquire " ++ k ++ ", because " ++ r.uuid ++ " is holding it")],
          crashed := false } := by
  intro p
  have hacq : ZMQLockServer.acquire t k o n = ((false, AcqInfo.holder r.uuid), t) := by
    unfold ZMQLockServer.acquire
    rw [hl]
    simp [hne]
  have hb : requestBody p t ["acquire", k, o, ts]
      = { sent := [["retry", "lock held by uuid " ++ r.uuid]],
          table := t,
          logged := [(LogLevel.info,
            o ++ " failed to acquire " ++ k ++ ", because " ++ r.uuid ++ " is holding it")],
          exn := none } := by
    simp [requestBody, hparse, hacq]
  unfold processRequest
  rw [hb]

theorem retry_response_poll_independent_witness :
    pyInt? "5" = some 5
    ∧ singleTable "fileV" ⟨"oG", 4, 1⟩ "fileV" = some ⟨"oG", 4, 1⟩
    ∧ ("oG" : String) ≠ "oH"
    ∧ processRequest true (singleTable "fileV" ⟨"oG", 4, 1⟩) ["acquire", "fileV", "oH", "5"]
        = { sent := [["retry", "lock held by uuid oG"]],
            table := singleTable "fileV" ⟨"oG", 4, 1⟩,
            logged := [(LogLevel.info,
              "oH failed to acquire fileV, because oG is holding it")],
            crashed := false }
    ∧ processRequest false (singleTable "fileV" ⟨"oG", 4, 1⟩) ["acquire", "fileV", "oH", "5"]
        = { sent := [["retry", "lock held by uuid oG"]],
            table := singleTable "fileV" ⟨"oG", 4, 1⟩,
            logged := [(LogLevel.info,
              "oH failed to acquire fileV, because oG is holding it")],
            crashed := false } :=
  have h := retry_response_poll_independent (singleTable "fileV" ⟨"oG", 4, 1⟩)
    "fileV" "oH" "5" 5 ⟨"oG", 4, 1⟩ (by decide) (by decide) (by decide)
  ⟨by decide, by decide, by decide, h true, h false⟩

/-- C8: a request whose first frame is none of `hello`, `acquire`, `release`
raises `ValueError`, which the catch-all converts into an `error` response
(frames beginning with `error`); the lock table is unchanged and the server
does not crash. -/
theorem unknown_verb_error_response (p : Bool) (t : LockTable) (request : String)
    (args : List String) (h1 : request ≠ "hello") (h2 : request ≠ "acquire")
    (h3 : request ≠ "release") :
    processRequest p t (request :: args)
      = { sent := [["error", tracebackText (PyExn.valueError ("invalid method: " ++ request))]],
          table := t,
          logged := [(LogLevel.error,
            "Exception whilst processing request " ++ toString (request :: args)
              ++ ":\n" ++ tracebackText (PyExn.valueError ("invalid method: " ++ request)))],
          crashed := false } := by
  have hb : requestBody p t (request :: args)
      = { sent := [], table := t, logged := [],
          exn := some (PyExn.valueError ("invalid method: " ++ request)) } := by
    simp only [requestBody]
    rw [if_neg h1, if_neg h2, if_neg h3]
  unfold processRequest
  rw [hb]
  rfl

theorem unknown_verb_error_response_witness :
    ("frobnicate" : String) ≠ "hello"
    ∧ ("frobnicate" : String) ≠ "acquire"
    ∧ ("frobnicate" : String) ≠ "release"
    ∧ processRequest true emptyTable ["frobnicate"]
        = { sent := [["error",
              tracebackText (PyExn.valueError ("invalid method: " ++ "frobnicate"))]],
            table := emptyTable,
            logged := [(LogLevel.error,
              "Exception whilst processing request " ++ toString (["frobnicate"] : List String)
                ++ ":\n" ++ tracebackText (PyExn.valueError ("invalid method: " ++ "frobnicate")))],
            crashed := false } :=
  ⟨by decide, by decide, by decide,
    unknown_verb_error_response true emptyTable "frobnicate" []
      (by decide) (by decide) (by decide)⟩

/-- C6: refuted at a concrete failing input.  A failed release request does
send the frames `['error', 'lock holding timed out or was never acquired']`
on the REP socket, but the subsequent `logger.warning` call evaluates
`args[2]` on the 2-element argument list and raises `IndexError`, so the
failure is never logged; the catch-all then attempts a second send on the
REP socket, which violates strict alternation and aborts the request loop
(`crashed = true`) instead of continuing. -/
theorem failed_release_crashes_handler :
    processRequest true emptyTable ["release", "fileX", "uuidA"]
      = { sent := [["error", "lock holding timed out or was never acquired"]],
          table := emptyTable, logged := [], crashed := true } := by
  rfl
